import Mathlib

/-!
Verification of the metric-computation module of the recommendation-course
repository (src/tools.py) against its natural-language specification.

The pandas dataframes are embedded as lists of typed rows:

* a row of `recommendations` carries the customer id (`cid` column), the
  article id (`article_id` column) and the value of the caller-chosen
  `sort_column`;
* a row of `true_labels` carries the customer id, the article id and the
  value of the `interested` column; the table additionally records whether
  the `interested` column is present at all (`hasInterested`), because the
  code reads that column after the merge;
* a row of `articles_df` carries the article id (the dataframe index) and
  the article's numeric feature vector.

Rational numbers stand for the numeric cell values.  Means of rationals are
rationals; the `std` cells are real numbers (`Real.sqrt` of the sample
variance with denominator n-1, exactly pandas' `Series.std()`), and the
`NaN` results pandas produces on empty/singleton series are modelled with
`Option` (`none` = NaN).  Cosine similarity is real-valued; note that Lean's
division-by-zero-is-zero convention coincides with sklearn's treatment of
zero vectors (a zero row is left unnormalised, so its similarities are 0).

Exceptions raised by pandas / sklearn / Python are modelled with
`Except PdError`; `checkErr` reproduces, in program order, every condition
under which `get_metrics` raises instead of returning the summary row.
-/

/-- A row of the `recommendations` dataframe: columns
`(customer_id, article_id, sort_column)`. -/
structure RecRow where
  cid : Int
  aid : String
  sortv : Rat
deriving DecidableEq, Repr

/-- A row of the `true_labels` dataframe: columns
`(customer_id, article_id, interested)`. -/
structure TLRow where
  cid : Int
  aid : String
  interested : Rat
deriving DecidableEq, Repr

/-- The `true_labels` dataframe: its rows, plus whether the `interested`
column is present (the code dereferences `recs["interested"]` after the
merge, which raises a `KeyError` when the column is missing). -/
structure TrueLabels where
  hasInterested : Bool
  rows : List TLRow
deriving DecidableEq, Repr

/-- A row of the `articles_df` dataframe: the article id (the index) and
the feature vector of the article. -/
structure ItemRow where
  aid : String
  vec : List Rat
deriving DecidableEq, Repr

/-- A row of the merged frame produced by
`pd.merge(recommendations, true_labels, how="left", on=[cid, article_id])`
after `fillna(0)` on the `interested` column. -/
structure MRow where
  cid : Int
  aid : String
  sortv : Rat
  interested : Rat
deriving DecidableEq, Repr

/-- The exceptions `get_metrics` can raise, in the order the code can hit
them: integer division by zero at the coverage line when `articles_df` has
an empty index; `KeyError` when `true_labels` has no `interested` column;
sklearn's zero-sample `ValueError` when `cosine_similarity` receives an
empty matrix; pandas' shape-mismatch `ValueError` when the similarity
matrix is smaller than the label lists imply; and the `TypeError` from
`zip(*...)` when a customer with fewer than two recommendations makes
`explode` emit a NaN in place of a pair. -/
inductive PdError where
  | zeroDivision
  | keyErrorInterested
  | valueErrorEmptySample
  | valueErrorShape
  | typeErrorZip
deriving DecidableEq, Repr

/-- `pd.merge(left, right, how="left", on=[customer_id, "article_id"])`
followed by `fillna(0)` on the label column: each left row is repeated once
per matching right row, and an unmatched left row survives with label 0. -/
def mergeLeft (recommendations : List RecRow) (tl : List TLRow) : List MRow :=
  recommendations.flatMap fun r =>
    let ms := tl.filter fun t => t.cid == r.cid && t.aid == r.aid
    if ms.isEmpty then [⟨r.cid, r.aid, r.sortv, 0⟩]
    else ms.map fun t => ⟨r.cid, r.aid, r.sortv, t.interested⟩

/-- Distinct elements of a list in order of first appearance — the order
`pandas.Series.unique()` uses. -/
def firstDedup {α : Type} [DecidableEq α] : List α → List α
  | [] => []
  | a :: l => a :: ((firstDedup l).filter fun b => !(b == a))

/-- The distinct keys of a list of integers, sorted ascending — the order in
which `groupby` (with its default `sort=True`) enumerates the groups. -/
def keysAsc (l : List Int) : List Int :=
  List.insertionSort (fun a b => a ≤ b) (firstDedup l)

/-- The merged, label-filled frame `recs` of `get_metrics`. -/
def mergedOf (recommendations : List RecRow) (tl : TrueLabels) : List MRow :=
  mergeLeft recommendations tl.rows

/-- The customer ids of the merged frame in `groupby` order. -/
def cidsOf (recommendations : List RecRow) (tl : TrueLabels) : List Int :=
  keysAsc ((mergedOf recommendations tl).map MRow.cid)

/-- Per-customer Precision@K: `groupby(cid)["interested"].mean()`. -/
def prec_xcid (recommendations : List RecRow) (tl : TrueLabels) : List Rat :=
  (cidsOf recommendations tl).map fun c =>
    let g := ((mergedOf recommendations tl).filter fun r => r.cid == c).map MRow.interested
    g.sum / (g.length : Rat)

/-- Per-customer Recall@K: `groupby(cid)["interested"].sum() / 10`. -/
def rec_xcid (recommendations : List RecRow) (tl : TrueLabels) : List Rat :=
  (cidsOf recommendations tl).map fun c =>
    (((mergedOf recommendations tl).filter fun r => r.cid == c).map MRow.interested).sum / 10

/-- The sort order of
`recs.sort_values(by=[cid, sort_column], ascending=[False, False])`:
customer id descending, then sort column descending. -/
def mapRel (r1 r2 : MRow) : Prop :=
  r2.cid < r1.cid ∨ (r1.cid = r2.cid ∧ r2.sortv ≤ r1.sortv)

instance : DecidableRel mapRel := fun a b => by
  unfold mapRel; infer_instance

/-- The merged frame sorted by (customer id desc, sort column desc); the
multi-key sort pandas performs is `numpy.lexsort`, which is stable, as is
insertion sort. -/
def sortedMergedOf (recommendations : List RecRow) (tl : TrueLabels) : List MRow :=
  List.insertionSort mapRel (mergedOf recommendations tl)

/-- The label sequence of one customer in the sorted frame. -/
def mapLabelsOf (recommendations : List RecRow) (tl : TrueLabels) (c : Int) : List Rat :=
  ((sortedMergedOf recommendations tl).filter fun r => r.cid == c).map MRow.interested

/-- The per-position values of the MAP@K computation: at position `i`
(0-based), the expanding sum of the labels seen so far divided by the
expanding count, multiplied by the label at `i`. -/
def expandingPrec (labels : List Rat) : List Rat :=
  (List.range labels.length).map fun i =>
    ((labels.take (i + 1)).sum / ((i : Rat) + 1)) * labels.getD i 0

/-- Per-customer MAP@K: `groupby(cid)["intra_map@k"].mean()` over the
sorted frame. -/
def map_xcid (recommendations : List RecRow) (tl : TrueLabels) : List Rat :=
  (cidsOf recommendations tl).map fun c =>
    let vals := expandingPrec (mapLabelsOf recommendations tl c)
    vals.sum / (vals.length : Rat)

/-- `recs["article_id"].unique()` on the sorted merged frame: the labels of
the similarity matrix, in order of first appearance. -/
def uniqAidsOf (recommendations : List RecRow) (tl : TrueLabels) : List String :=
  firstDedup ((sortedMergedOf recommendations tl).map MRow.aid)

/-- `articles_df[articles_df.index.isin(recs["article_id"].unique())]`:
the item rows fed to `cosine_similarity`, in `articles_df` order. -/
def presentOf (recommendations : List RecRow) (tl : TrueLabels)
    (items : List ItemRow) : List ItemRow :=
  items.filter fun it => (uniqAidsOf recommendations tl).contains it.aid

/-- `itertools.combinations(xs, 2)` in its enumeration order. -/
def pairsOf {α : Type} : List α → List (α × α)
  | [] => []
  | a :: l => (l.map fun b => (a, b)) ++ pairsOf l

/-- The pair list of one customer (their `combs` column). -/
def pairsOfCustomer (recommendations : List RecRow) (tl : TrueLabels)
    (c : Int) : List (String × String) :=
  pairsOf (((sortedMergedOf recommendations tl).filter fun r => r.cid == c).map MRow.aid)

/-- Dot product of two feature vectors. -/
def dotQ (u v : List Rat) : Rat :=
  (List.zipWith (fun a b => a * b) u v).sum

/-- sklearn's cosine similarity of two vectors.  With Lean's
division-by-zero convention this is 0 whenever either vector is zero,
exactly as sklearn leaves zero rows unnormalised. -/
noncomputable def cosineSim (u v : List Rat) : Real :=
  ((dotQ u v : Rat) : Real) /
    (Real.sqrt ((dotQ u u : Rat) : Real) * Real.sqrt ((dotQ v v : Rat) : Real))

/-- The similarity score the code looks up for the ordered pair `(a, b)`:
the similarity matrix is computed from the `presentOf` rows (in
`articles_df` order) but labelled with `uniqAidsOf` (in recommendation
order), so the lookup goes through positions in the label list. -/
noncomputable def scoreOf (recommendations : List RecRow) (tl : TrueLabels)
    (items : List ItemRow) (a b : String) : Real :=
  let uniq := uniqAidsOf recommendations tl
  let present := presentOf recommendations tl items
  cosineSim (present.getD (uniq.indexOf a) ⟨"", []⟩).vec
    (present.getD (uniq.indexOf b) ⟨"", []⟩).vec

/-- Mean of a list of reals (pandas `mean` on a nonempty series). -/
noncomputable def meanR (l : List Real) : Real :=
  l.sum / (l.length : Real)

/-- Per-customer Diversity: `1 - groupby(cid)["score"].mean()`. -/
noncomputable def div_xcid (recommendations : List RecRow) (tl : TrueLabels)
    (items : List ItemRow) : List Real :=
  (cidsOf recommendations tl).map fun c =>
    1 - meanR ((pairsOfCustomer recommendations tl c).map fun p =>
      scoreOf recommendations tl items p.1 p.2)

/-- `Series.mean()`: NaN (here `none`) on an empty series. -/
def meanQO (l : List Rat) : Option Rat :=
  if l.isEmpty then none else some (l.sum / (l.length : Rat))

/-- The sample variance with denominator n-1 underlying `Series.std()`. -/
def varQ (l : List Rat) : Rat :=
  ((l.map fun x => (x - l.sum / (l.length : Rat)) ^ 2).sum) / ((l.length : Rat) - 1)

/-- `Series.std()` (ddof = 1): NaN (`none`) on a series of length ≤ 1,
otherwise the square root of the sample variance. -/
noncomputable def stdQO (l : List Rat) : Option Real :=
  if l.length ≤ 1 then none else some (Real.sqrt ((varQ l : Rat) : Real))

/-- `Series.mean()` for a real-valued series. -/
noncomputable def meanRO (l : List Real) : Option Real :=
  if l.isEmpty then none else some (meanR l)

/-- `Series.std()` for a real-valued series. -/
noncomputable def stdRO (l : List Real) : Option Real :=
  if l.length ≤ 1 then none
  else some (Real.sqrt (((l.map fun x => (x - meanR l) ^ 2).sum) / ((l.length : Real) - 1)))

/-- Round-half-to-even to an integer, Python's `round` tie rule. -/
def roundHalfEven (x : Rat) : Int :=
  let f := Int.floor x
  if x - (f : Rat) < 1 / 2 then f
  else if x - (f : Rat) > 1 / 2 then f + 1
  else if Even f then f else f + 1

/-- Python's `round(x, 4)`. -/
def roundTo4 (x : Rat) : Rat :=
  ((roundHalfEven (x * 10000) : Rat)) / 10000

/-- The coverage ratio
`recommendations["article_id"].nunique() / articles_df.index.nunique()`. -/
def catCovRatio (recommendations : List RecRow) (items : List ItemRow) : Rat :=
  ((firstDedup (recommendations.map RecRow.aid)).length : Rat) /
    ((firstDedup (items.map ItemRow.aid)).length : Rat)

/-- The numeric cells of the summary row.  The mean cells of the label-based
metrics are rational; each `std` cell is the square root of the sample
variance (ddof = 1); `none` models the NaN pandas emits for the mean of an
empty series or the std of a singleton series. -/
structure MetricData where
  catCov : Rat
  precMean : Option Rat
  precStd : Option Real
  recMean : Option Rat
  recStd : Option Real
  mapMean : Option Rat
  mapStd : Option Real
  divMean : Option Real
  divStd : Option Real

/-- The column labels of the summary row; `k` appears only inside these
strings. -/
def columnsOf (k : Nat) : List (String × String) :=
  [("General", "Catalog coverage (%)"),
   ("Precision@" ++ toString k, "mean"), ("Precision@" ++ toString k, "std"),
   ("Recall@" ++ toString k, "mean"), ("Recall@" ++ toString k, "std"),
   ("MAP@" ++ toString k, "mean"), ("MAP@" ++ toString k, "std"),
   ("Diversity", "mean"), ("Diversity", "std")]

/-- The summary dataframe returned by `get_metrics`: one row, indexed by the
engine name, with the labelled numeric cells. -/
structure Summary where
  name : String
  columns : List (String × String)
  data : MetricData

/-- Every condition under which `get_metrics` raises, tested in the order
the code reaches them: division by zero at the coverage line; the missing
`interested` column; sklearn rejecting an empty matrix at
`cosine_similarity`; the similarity-matrix / label-list shape mismatch when
a recommended article is absent from `articles_df`; and the `TypeError`
from `zip(*combs)` when some customer contributes no pair. -/
def checkErr (recommendations : List RecRow) (tl : TrueLabels)
    (items : List ItemRow) : Option PdError :=
  if (firstDedup (items.map ItemRow.aid)).length = 0 then some PdError.zeroDivision
  else if tl.hasInterested = false then some PdError.keyErrorInterested
  else if (presentOf recommendations tl items).isEmpty then some PdError.valueErrorEmptySample
  else if (presentOf recommendations tl items).length ≠ (uniqAidsOf recommendations tl).length then
    some PdError.valueErrorShape
  else if (cidsOf recommendations tl).any (fun c => (pairsOfCustomer recommendations tl c).isEmpty) then
    some PdError.typeErrorZip
  else none

/-- The numeric cells computed by a successful run of `get_metrics`. -/
noncomputable def metricDataOf (recommendations : List RecRow) (tl : TrueLabels)
    (items : List ItemRow) : MetricData :=
  { catCov := roundTo4 (100 * catCovRatio recommendations items)
    precMean := meanQO (prec_xcid recommendations tl)
    precStd := stdQO (prec_xcid recommendations tl)
    recMean := meanQO (rec_xcid recommendations tl)
    recStd := stdQO (rec_xcid recommendations tl)
    mapMean := meanQO (map_xcid recommendations tl)
    mapStd := stdQO (map_xcid recommendations tl)
    divMean := meanRO (div_xcid recommendations tl items)
    divStd := stdRO (div_xcid recommendations tl items) }

/-- `get_metrics` of src/tools.py.  The `sort_column` and `customer_id`
parameters are absorbed into the row types (`sortv` and `cid` are the cells
of those caller-chosen columns); `k` defaults to 5 as in the source. -/
noncomputable def get_metrics (name : String) (recommendations : List RecRow)
    (true_labels : TrueLabels) (articles_df : List ItemRow) (k : Nat := 5) :
    Except PdError Summary :=
  match checkErr recommendations true_labels articles_df with
  | some e => Except.error e
  | none =>
      Except.ok
        { name := name
          columns := columnsOf k
          data := metricDataOf recommendations true_labels articles_df }

/-! ## The image utility `show_article` -/

/-- The in-memory image: its pixel dimensions plus an abstract content
identifier that `resize` preserves. -/
structure PILImage where
  width : Nat
  height : Nat
  content : Nat
deriving DecidableEq, Repr

/-- `Image.resize` keeps the picture but replaces its dimensions. -/
def PILImage.resize (im : PILImage) (size : Nat × Nat) : PILImage :=
  { im with width := size.1, height := size.2 }

/-- The fixed base directory `_IMAGES_PATH` of src/tools.py. -/
def imagesPath : String :=
  "./recursos/datos/images"

/-- The path `show_article` opens: base directory, then the first three
characters of the article id as a subdirectory, then the id itself with the
`.jpg` extension. -/
def articleImagePath (article_id : String) : String :=
  imagesPath ++ "/" ++ article_id.take 3 ++ "/" ++ article_id ++ ".jpg"

/-- `show_article` of src/tools.py.  The filesystem is a parameter mapping
paths to the images stored there (`none` = no such file, in which case
`Image.open` raises, modelled by a `none` result). -/
def show_article (fs : String → Option PILImage) (article_id : String)
    (size : Nat × Nat := (200, 200)) : Option PILImage :=
  (fs (articleImagePath article_id)).map fun im => im.resize size

/-! ## Projections of the result of `get_metrics`

Each claim reads specific cells of the returned summary row; these helpers
extract them (`none` = the call raised instead of returning). -/

/-- The catalog-coverage cell of a successful run. -/
def covFieldOf : Except PdError Summary → Option Rat
  | Except.ok s => some s.data.catCov
  | Except.error _ => none

/-- The Precision@k mean/std cells of a successful run. -/
def precFieldsOf : Except PdError Summary → Option (Option Rat × Option Real)
  | Except.ok s => some (s.data.precMean, s.data.precStd)
  | Except.error _ => none

/-- The Recall@k mean/std cells of a successful run. -/
def recFieldsOf : Except PdError Summary → Option (Option Rat × Option Real)
  | Except.ok s => some (s.data.recMean, s.data.recStd)
  | Except.error _ => none

/-- The MAP@k mean/std cells of a successful run. -/
def mapFieldsOf : Except PdError Summary → Option (Option Rat × Option Real)
  | Except.ok s => some (s.data.mapMean, s.data.mapStd)
  | Except.error _ => none

/-- The Diversity mean/std cells of a successful run. -/
def divFieldsOf : Except PdError Summary → Option (Option Real × Option Real)
  | Except.ok s => some (s.data.divMean, s.data.divStd)
  | Except.error _ => none

/-- The engine name and the numeric cells of a successful run — everything
except the textual column labels. -/
def numericPartOf : Except PdError Summary → Except PdError (String × MetricData)
  | Except.ok s => Except.ok (s.name, s.data)
  | Except.error e => Except.error e

/-- The column labels of a successful run. -/
def colsOfRes : Except PdError Summary → Option (List (String × String))
  | Except.ok s => some s.columns
  | Except.error _ => none

/-! ## Spec-side formulations

These definitions follow the words of the specification (not the code) and
are compared with the embedding in the claim theorems. -/

/-- Spec: the label of a recommended `(customer, article)` pair is the
`interested` value of the matching true-label row, and 0 when the pair is
unmatched. -/
def specLabel (tl : List TLRow) (c : Int) (a : String) : Rat :=
  match tl.find? (fun t => t.cid == c && t.aid == a) with
  | some t => t.interested
  | none => 0

/-- Spec: per-customer Precision@k is the mean of the labels of the
customer's recommended rows. -/
def specPrecPerCustomer (recommendations : List RecRow) (tl : List TLRow) (c : Int) : Rat :=
  let g := (recommendations.filter fun r => r.cid == c).map fun r => specLabel tl r.cid r.aid
  g.sum / (g.length : Rat)

/-- Spec: per-customer Recall@k is the sum of the customer's labels divided
by the fixed constant 10. -/
def specRecallPerCustomer (recommendations : List RecRow) (tl : List TLRow) (c : Int) : Rat :=
  ((recommendations.filter fun r => r.cid == c).map fun r => specLabel tl r.cid r.aid).sum / 10

/-- Spec: per-customer MAP@k — at every position of the customer's sorted
label sequence, the cumulative label sum over the cumulative count,
multiplied by the label there, averaged over the positions. -/
def specMapPerCustomer (recommendations : List RecRow) (tl : TrueLabels) (c : Int) : Rat :=
  let ls := mapLabelsOf recommendations tl c
  let vals := (List.range ls.length).map fun i =>
    ((∑ j ∈ Finset.range (i + 1), ls.getD j 0) / ((i : Rat) + 1)) * ls.getD i 0
  vals.sum / (vals.length : Rat)

/-- Spec: the feature vector of an article is the one stored for it in
`articles_df` (the first row with that index). -/
def specVec (items : List ItemRow) (a : String) : List Rat :=
  match items.find? (fun it => it.aid == a) with
  | some it => it.vec
  | none => []

/-- Spec: per-customer Diversity is the mean, over the customer's pairs of
recommended articles, of one minus the cosine similarity of the pair's own
feature vectors. -/
noncomputable def specDivPerCustomer (recommendations : List RecRow) (tl : TrueLabels)
    (items : List ItemRow) (c : Int) : Real :=
  meanR ((pairsOfCustomer recommendations tl c).map fun p =>
    1 - cosineSim (specVec items p.1) (specVec items p.2))

/-- Spec: catalog coverage is the number of distinct recommended articles
over the number of distinct articles of the catalog, times 100, rounded to
4 decimal places. -/
def specCatCov (recommendations : List RecRow) (items : List ItemRow) : Rat :=
  roundTo4 (100 * (((recommendations.map RecRow.aid).toFinset.card : Rat) /
    ((items.map ItemRow.aid).toFinset.card : Rat)))

/-- Whether the call raised an exception instead of returning. -/
def raisedOf : Except PdError Summary → Bool
  | Except.ok _ => false
  | Except.error _ => true

/-! ## Concrete inputs used by the counterexamples and witnesses -/

/-- The worked example of the spec: customer 1 is recommended A01 at rank 1
and A02 at rank 2. -/
def exRecs : List RecRow :=
  [⟨1, "A01", 1⟩, ⟨1, "A02", 2⟩]

/-- The worked example's true labels: customer 1 interacted with A01. -/
def exTL : TrueLabels :=
  ⟨true, [⟨1, "A01", 1⟩]⟩

/-- A catalog holding orthogonal unit feature vectors for A01 and A02. -/
def exItems : List ItemRow :=
  [⟨"A01", [1, 0]⟩, ⟨"A02", [0, 1]⟩]

/-- Like `exRecs` but with the sort values swapped, so that the
first-appearance order of the articles in the sorted frame (A01 before A02)
agrees with their order in `exItems`. -/
def exRecsB : List RecRow :=
  [⟨1, "A01", 2⟩, ⟨1, "A02", 1⟩]

/-- A single customer with a single recommended article. -/
def oneRec : List RecRow :=
  [⟨1, "A01", 1⟩]

/-- A catalog holding only A01. -/
def oneItems : List ItemRow :=
  [⟨"A01", [1]⟩]

/-- Recommendations mentioning A02, which `oneItems` does not carry. -/
def missRecs : List RecRow :=
  [⟨1, "A01", 2⟩, ⟨1, "A02", 1⟩]

/-- A one-image filesystem for exercising `show_article`. -/
def demoFS : String → Option PILImage := fun p =>
  if p = articleImagePath "0123456" then some ⟨640, 480, 7⟩ else none

/-! ## Helper lemmas -/

theorem mem_firstDedup {α : Type} [DecidableEq α] {x : α} {l : List α} :
    x ∈ firstDedup l ↔ x ∈ l := by
  induction l with
  | nil => simp [firstDedup]
  | cons a l ih =>
    simp only [firstDedup, List.mem_cons, List.mem_filter, ih, Bool.not_eq_eq_eq_not,
      Bool.not_true, beq_eq_false_iff_ne, ne_eq]
    by_cases h : x = a <;> simp [h]

theorem nodup_firstDedup {α : Type} [DecidableEq α] {l : List α} :
    (firstDedup l).Nodup := by
  induction l with
  | nil => simp [firstDedup]
  | cons a l ih =>
    simp only [firstDedup, List.nodup_cons]
    refine ⟨fun hmem => ?_, List.Nodup.filter _ ih⟩
    rw [List.mem_filter] at hmem
    simp at hmem

theorem length_firstDedup {α : Type} [DecidableEq α] {l : List α} :
    (firstDedup l).length = l.toFinset.card := by
  have h1 : (firstDedup l).toFinset = l.toFinset := by
    ext x
    simp [List.mem_toFinset, mem_firstDedup]
  rw [← h1, List.toFinset_card_of_nodup nodup_firstDedup]

theorem mem_of_mem_pairsOf {α : Type} {l : List α} {p : α × α}
    (h : p ∈ pairsOf l) : p.1 ∈ l ∧ p.2 ∈ l := by
  induction l with
  | nil => simp [pairsOf] at h
  | cons a l ih =>
    simp only [pairsOf, List.mem_append, List.mem_map] at h
    rcases h with ⟨b, hb, hp⟩ | h
    · cases hp
      exact ⟨List.mem_cons_self _ _, List.mem_cons_of_mem _ hb⟩
    · exact ⟨List.mem_cons_of_mem _ (ih h).1, List.mem_cons_of_mem _ (ih h).2⟩

theorem sum_take_eq_sum_range (l : List Rat) (n : Nat) :
    (l.take n).sum = ∑ j ∈ Finset.range n, l.getD j 0 := by
  induction n with
  | zero => simp
  | succ n ih =>
    rw [List.take_succ, List.sum_append, Finset.sum_range_succ, ih]
    congr 1
    rw [List.getD_eq_getElem?_getD]
    cases h : l[n]? with
    | none => simp
    | some a => simp

theorem sum_map_one_sub (l : List Real) :
    (l.map fun x => 1 - x).sum = (l.length : Real) - l.sum := by
  induction l with
  | nil => simp
  | cons a l ih =>
    simp only [List.map_cons, List.sum_cons, ih, List.length_cons]
    push_cast
    ring

theorem tl_filter_eq_find (tl : List TLRow)
    (hnd : (tl.map fun t => (t.cid, t.aid)).Nodup) (c : Int) (a : String) :
    tl.filter (fun t => t.cid == c && t.aid == a)
      = (tl.find? fun t => t.cid == c && t.aid == a).toList := by
  induction tl with
  | nil => simp
  | cons t ts ih =>
    simp only [List.map_cons, List.nodup_cons] at hnd
    by_cases hp : (t.cid == c && t.aid == a) = true
    · rw [@List.filter_cons_of_pos _ (fun u => u.cid == c && u.aid == a) t ts hp,
        @List.find?_cons_of_pos _ (fun u => u.cid == c && u.aid == a) t ts hp]
      have hc : t.cid = c ∧ t.aid = a := by
        simpa using hp
      have hnil : ts.filter (fun u => u.cid == c && u.aid == a) = [] := by
        rw [List.filter_eq_nil_iff]
        intro u hu hup
        have hu2 : u.cid = c ∧ u.aid = a := by simpa using hup
        apply hnd.1
        have hmm := List.mem_map_of_mem (fun v : TLRow => (v.cid, v.aid)) hu
        rw [hc.1, hc.2, ← hu2.1, ← hu2.2]
        exact hmm
      rw [hnil]
      rfl
    · rw [@List.filter_cons_of_neg _ (fun u => u.cid == c && u.aid == a) t ts hp,
        @List.find?_cons_of_neg _ (fun u => u.cid == c && u.aid == a) t ts hp]
      exact ih hnd.2

theorem mergeLeft_eq_map (recommendations : List RecRow) (tl : List TLRow)
    (hnd : (tl.map fun t => (t.cid, t.aid)).Nodup) :
    mergeLeft recommendations tl
      = recommendations.map fun r => ⟨r.cid, r.aid, r.sortv, specLabel tl r.cid r.aid⟩ := by
  induction recommendations with
  | nil => rfl
  | cons r rs ih =>
    simp only [mergeLeft, List.flatMap_cons, List.map_cons] at ih ⊢
    rw [tl_filter_eq_find tl hnd r.cid r.aid]
    rw [ih]
    unfold specLabel
    cases hf : tl.find? fun t => t.cid == r.cid && t.aid == r.aid with
    | none => simp
    | some t => simp

instance : IsTotal MRow mapRel :=
  ⟨by
    intro a b
    unfold mapRel
    rcases lt_trichotomy a.cid b.cid with h | h | h
    · exact Or.inr (Or.inl h)
    · rcases le_total b.sortv a.sortv with hs | hs
      · exact Or.inl (Or.inr ⟨h, hs⟩)
      · exact Or.inr (Or.inr ⟨h.symm, hs⟩)
    · exact Or.inl (Or.inl h)⟩

instance : IsTrans MRow mapRel :=
  ⟨by
    intro a b c hab hbc
    unfold mapRel at hab hbc ⊢
    rcases hab with h1 | ⟨h1, hs1⟩ <;> rcases hbc with h2 | ⟨h2, hs2⟩
    · exact Or.inl (lt_trans h2 h1)
    · exact Or.inl (h2 ▸ h1)
    · exact Or.inl (h1 ▸ h2)
    · exact Or.inr ⟨h1.trans h2, hs2.trans hs1⟩⟩

theorem get_metrics_eq_ok (name : String) (recommendations : List RecRow)
    (tl : TrueLabels) (items : List ItemRow) (k : Nat)
    (h : checkErr recommendations tl items = none) :
    get_metrics name recommendations tl items k
      = Except.ok ⟨name, columnsOf k, metricDataOf recommendations tl items⟩ := by
  unfold get_metrics
  rw [h]

theorem checkErr_none_facts (recommendations : List RecRow) (tl : TrueLabels)
    (items : List ItemRow) (h : checkErr recommendations tl items = none) :
    (firstDedup (items.map ItemRow.aid)).length ≠ 0
    ∧ tl.hasInterested = true
    ∧ (presentOf recommendations tl items) ≠ []
    ∧ (presentOf recommendations tl items).length = (uniqAidsOf recommendations tl).length
    ∧ ∀ c ∈ cidsOf recommendations tl, pairsOfCustomer recommendations tl c ≠ [] := by
  unfold checkErr at h
  split_ifs at h with h1 h2 h3 h4 h5
  refine ⟨h1, by simpa using h2, by simpa [List.isEmpty_iff] using h3, not_not.mp h4, ?_⟩
  intro c hc hnil
  exact h5 (List.any_eq_true.mpr ⟨c, hc, by simp [hnil]⟩)

theorem prec_xcid_eq_spec (recommendations : List RecRow) (tl : TrueLabels)
    (hnd : (tl.rows.map fun t => (t.cid, t.aid)).Nodup) :
    prec_xcid recommendations tl
      = (cidsOf recommendations tl).map (specPrecPerCustomer recommendations tl.rows) := by
  unfold prec_xcid specPrecPerCustomer
  apply List.map_congr_left
  intro c hc
  have hm : (mergedOf recommendations tl).filter (fun r => r.cid == c)
      = ((recommendations.filter fun r => r.cid == c).map
          fun r => ⟨r.cid, r.aid, r.sortv, specLabel tl.rows r.cid r.aid⟩) := by
    rw [mergedOf, mergeLeft_eq_map _ _ hnd, List.filter_map]
    rfl
  rw [hm, List.map_map]
  rfl

theorem rec_xcid_eq_spec (recommendations : List RecRow) (tl : TrueLabels)
    (hnd : (tl.rows.map fun t => (t.cid, t.aid)).Nodup) :
    rec_xcid recommendations tl
      = (cidsOf recommendations tl).map (specRecallPerCustomer recommendations tl.rows) := by
  unfold rec_xcid specRecallPerCustomer
  apply List.map_congr_left
  intro c hc
  have hm : (mergedOf recommendations tl).filter (fun r => r.cid == c)
      = ((recommendations.filter fun r => r.cid == c).map
          fun r => ⟨r.cid, r.aid, r.sortv, specLabel tl.rows r.cid r.aid⟩) := by
    rw [mergedOf, mergeLeft_eq_map _ _ hnd, List.filter_map]
    rfl
  rw [hm, List.map_map]
  rfl

theorem map_xcid_eq_spec (recommendations : List RecRow) (tl : TrueLabels) :
    map_xcid recommendations tl
      = (cidsOf recommendations tl).map (specMapPerCustomer recommendations tl) := by
  unfold map_xcid specMapPerCustomer
  apply List.map_congr_left
  intro c hc
  have h : expandingPrec (mapLabelsOf recommendations tl c)
      = (List.range (mapLabelsOf recommendations tl c).length).map fun i =>
          ((∑ j ∈ Finset.range (i + 1), (mapLabelsOf recommendations tl c).getD j 0) /
            ((i : Rat) + 1)) * (mapLabelsOf recommendations tl c).getD i 0 := by
    unfold expandingPrec
    apply List.map_congr_left
    intro i hi
    rw [sum_take_eq_sum_range]
  rw [h]

theorem dotQ_self_nonneg (v : List Rat) : 0 ≤ dotQ v v := by
  unfold dotQ
  induction v with
  | nil => simp
  | cons a l ih =>
    rw [List.zipWith_cons_cons, List.sum_cons]
    exact add_nonneg (mul_self_nonneg a) ih

theorem cosineSim_self (v : List Rat) (h : dotQ v v ≠ 0) : cosineSim v v = 1 := by
  unfold cosineSim
  rw [Real.mul_self_sqrt (by exact_mod_cast dotQ_self_nonneg v)]
  exact div_self (by exact_mod_cast h)

theorem find?_eq_of_mem_nodup (items : List ItemRow)
    (hnd : (items.map ItemRow.aid).Nodup) {row : ItemRow} (hmem : row ∈ items)
    {a : String} (haid : row.aid = a) :
    items.find? (fun it => it.aid == a) = some row := by
  induction items with
  | nil => simp at hmem
  | cons it its ih =>
    simp only [List.map_cons, List.nodup_cons] at hnd
    rcases List.mem_cons.mp hmem with h | hmem2
    · subst h
      exact List.find?_cons_of_pos _ (by simp [haid])
    · by_cases hp : (it.aid == a) = true
      · exfalso
        apply hnd.1
        have h2 : row.aid ∈ its.map ItemRow.aid := List.mem_map_of_mem _ hmem2
        have h3 : it.aid = a := by simpa using hp
        rw [h3, ← haid]
        exact h2
      · rw [@List.find?_cons_of_neg _ (fun u => u.aid == a) it its hp]
        exact ih hnd.2 hmem2

theorem meanR_one_sub (l : List Real) (h : l ≠ []) :
    meanR (l.map fun x => 1 - x) = 1 - meanR l := by
  unfold meanR
  rw [sum_map_one_sub, List.length_map]
  have hn : (l.length : Real) ≠ 0 := by
    have h0 : l.length ≠ 0 := Nat.pos_iff_ne_zero.mp (List.length_pos.mpr h)
    exact_mod_cast h0
  rw [sub_div, div_self hn]

theorem present_lookup (recommendations : List RecRow) (tl : TrueLabels) (items : List ItemRow)
    (hndItems : (items.map ItemRow.aid).Nodup)
    (hOrder : (presentOf recommendations tl items).map ItemRow.aid = uniqAidsOf recommendations tl)
    {a : String} (ha : a ∈ uniqAidsOf recommendations tl) :
    ((presentOf recommendations tl items).getD
        ((uniqAidsOf recommendations tl).indexOf a) ⟨"", []⟩).vec = specVec items a := by
  have hidx : (uniqAidsOf recommendations tl).indexOf a
      < (uniqAidsOf recommendations tl).length := List.indexOf_lt_length.mpr ha
  have hidx2 : (uniqAidsOf recommendations tl).indexOf a
      < (presentOf recommendations tl items).length := by
    have hlen : (presentOf recommendations tl items).length
        = (uniqAidsOf recommendations tl).length := by
      rw [← hOrder, List.length_map]
    rw [hlen]
    exact hidx
  have hrow : (presentOf recommendations tl items).getD
        ((uniqAidsOf recommendations tl).indexOf a) ⟨"", []⟩
      = (presentOf recommendations tl items).get ⟨_, hidx2⟩ := by
    rw [List.getD_eq_getElem?_getD, List.getElem?_eq_getElem hidx2]
    rfl
  rw [hrow]
  have haid : ((presentOf recommendations tl items).get ⟨_, hidx2⟩).aid = a := by
    have h1 : ((presentOf recommendations tl items).map ItemRow.aid)[(uniqAidsOf
        recommendations tl).indexOf a]?
        = some ((presentOf recommendations tl items).get ⟨_, hidx2⟩).aid := by
      rw [List.getElem?_map, List.getElem?_eq_getElem hidx2]
      rfl
    rw [hOrder] at h1
    have h2 : (uniqAidsOf recommendations tl)[(uniqAidsOf recommendations tl).indexOf a]?
        = some a := by
      rw [List.getElem?_eq_getElem hidx]
      exact congrArg some (List.getElem_indexOf hidx)
    exact Option.some.inj (h1.symm.trans h2)
  have hmem0 : (presentOf recommendations tl items).get ⟨_, hidx2⟩
      ∈ presentOf recommendations tl items := List.get_mem _ _ hidx2
  have hmemItems : (presentOf recommendations tl items).get ⟨_, hidx2⟩ ∈ items := by
    simp only [presentOf] at hmem0
    exact List.mem_of_mem_filter hmem0
  unfold specVec
  rw [find?_eq_of_mem_nodup items hndItems hmemItems haid]

theorem scoreOf_eq_spec (recommendations : List RecRow) (tl : TrueLabels) (items : List ItemRow)
    (hndItems : (items.map ItemRow.aid).Nodup)
    (hOrder : (presentOf recommendations tl items).map ItemRow.aid = uniqAidsOf recommendations tl)
    {a b : String} (ha : a ∈ uniqAidsOf recommendations tl)
    (hb : b ∈ uniqAidsOf recommendations tl) :
    scoreOf recommendations tl items a b = cosineSim (specVec items a) (specVec items b) := by
  show cosineSim ((presentOf recommendations tl items).getD
      ((uniqAidsOf recommendations tl).indexOf a) ⟨"", []⟩).vec
    ((presentOf recommendations tl items).getD
      ((uniqAidsOf recommendations tl).indexOf b) ⟨"", []⟩).vec = _
  rw [present_lookup recommendations tl items hndItems hOrder ha,
    present_lookup recommendations tl items hndItems hOrder hb]

theorem pairs_mem_uniq (recommendations : List RecRow) (tl : TrueLabels) {c : Int}
    {p : String × String} (hp : p ∈ pairsOfCustomer recommendations tl c) :
    p.1 ∈ uniqAidsOf recommendations tl ∧ p.2 ∈ uniqAidsOf recommendations tl := by
  unfold pairsOfCustomer at hp
  have h := mem_of_mem_pairsOf hp
  constructor
  · rw [uniqAidsOf, mem_firstDedup]
    rcases List.mem_map.mp h.1 with ⟨r, hr, hraid⟩
    exact hraid ▸ List.mem_map_of_mem _ (List.mem_of_mem_filter hr)
  · rw [uniqAidsOf, mem_firstDedup]
    rcases List.mem_map.mp h.2 with ⟨r, hr, hraid⟩
    exact hraid ▸ List.mem_map_of_mem _ (List.mem_of_mem_filter hr)

theorem div_xcid_eq_spec (recommendations : List RecRow) (tl : TrueLabels) (items : List ItemRow)
    (hndItems : (items.map ItemRow.aid).Nodup)
    (hOrder : (presentOf recommendations tl items).map ItemRow.aid = uniqAidsOf recommendations tl)
    (hpairs : ∀ c ∈ cidsOf recommendations tl, pairsOfCustomer recommendations tl c ≠ []) :
    div_xcid recommendations tl items
      = (cidsOf recommendations tl).map (specDivPerCustomer recommendations tl items) := by
  unfold div_xcid specDivPerCustomer
  apply List.map_congr_left
  intro c hc
  have hsc : (pairsOfCustomer recommendations tl c).map
        (fun p => scoreOf recommendations tl items p.1 p.2)
      = (pairsOfCustomer recommendations tl c).map
        (fun p => cosineSim (specVec items p.1) (specVec items p.2)) := by
    apply List.map_congr_left
    intro p hp
    have h := pairs_mem_uniq recommendations tl hp
    exact scoreOf_eq_spec recommendations tl items hndItems hOrder h.1 h.2
  have hmap : (pairsOfCustomer recommendations tl c).map
        (fun p => 1 - cosineSim (specVec items p.1) (specVec items p.2))
      = ((pairsOfCustomer recommendations tl c).map
          (fun p => cosineSim (specVec items p.1) (specVec items p.2))).map (fun x => 1 - x) := by
    rw [List.map_map]
    rfl
  rw [hsc, hmap, meanR_one_sub]
  intro hnil
  rw [List.map_eq_nil_iff] at hnil
  exact hpairs c hc hnil

theorem aid_mem_merged (recommendations : List RecRow) (tl : TrueLabels) {r : RecRow}
    (hr : r ∈ recommendations) : r.aid ∈ (mergedOf recommendations tl).map MRow.aid := by
  unfold mergedOf mergeLeft
  apply List.mem_map.mpr
  by_cases he : ((tl.rows.filter fun t => t.cid == r.cid && t.aid == r.aid).isEmpty) = true
  · refine ⟨⟨r.cid, r.aid, r.sortv, 0⟩, List.mem_flatMap.mpr ⟨r, hr, ?_⟩, rfl⟩
    simp [he]
  · have hne : (tl.rows.filter fun t => t.cid == r.cid && t.aid == r.aid) ≠ [] := by
      simpa [List.isEmpty_iff] using he
    obtain ⟨t, ht⟩ := List.exists_mem_of_ne_nil _ hne
    refine ⟨⟨r.cid, r.aid, r.sortv, t.interested⟩, List.mem_flatMap.mpr ⟨r, hr, ?_⟩, rfl⟩
    simp only [if_neg he]
    exact List.mem_map_of_mem _ ht

theorem present_lt_uniq (recommendations : List RecRow) (tl : TrueLabels) (items : List ItemRow)
    (hndItems : (items.map ItemRow.aid).Nodup)
    {r : RecRow} (hr : r ∈ recommendations) (hmiss : r.aid ∉ items.map ItemRow.aid) :
    (presentOf recommendations tl items).length < (uniqAidsOf recommendations tl).length := by
  have hsub : List.Sublist ((presentOf recommendations tl items).map ItemRow.aid)
      (items.map ItemRow.aid) := (List.filter_sublist _).map _
  have hnd1 : ((presentOf recommendations tl items).map ItemRow.aid).Nodup :=
    hsub.nodup hndItems
  have hnd2 : (uniqAidsOf recommendations tl).Nodup := nodup_firstDedup
  have hmemuniq : r.aid ∈ uniqAidsOf recommendations tl := by
    rw [uniqAidsOf, mem_firstDedup]
    have hperm := (List.perm_insertionSort mapRel (mergedOf recommendations tl)).map MRow.aid
    exact hperm.mem_iff.mpr (aid_mem_merged recommendations tl hr)
  have hnotpres : r.aid ∉ (presentOf recommendations tl items).map ItemRow.aid := by
    intro hx
    rcases List.mem_map.mp hx with ⟨it, hit, haid⟩
    have : it.aid ∈ items.map ItemRow.aid :=
      List.mem_map_of_mem _ (List.mem_of_mem_filter hit)
    rw [haid] at this
    exact hmiss this
  have hss : ((presentOf recommendations tl items).map ItemRow.aid).toFinset
      ⊂ (uniqAidsOf recommendations tl).toFinset := by
    rw [Finset.ssubset_iff_of_subset]
    · exact ⟨r.aid, List.mem_toFinset.mpr hmemuniq, fun hx => hnotpres (List.mem_toFinset.mp hx)⟩
    · intro x hx
      rcases List.mem_map.mp (List.mem_toFinset.mp hx) with ⟨it, hit, haid⟩
      apply List.mem_toFinset.mpr
      have hcont := (List.mem_filter.mp hit).2
      rw [← haid]
      simpa [List.elem_iff] using hcont
  have hcard := Finset.card_lt_card hss
  rw [List.toFinset_card_of_nodup hnd1, List.toFinset_card_of_nodup hnd2,
    List.length_map] at hcard
  exact hcard

/-! ## Claim theorems -/

/-- Claim C1: for every recommendations table and duplicate-free true-labels
table, the Precision at k cells of the summary row are the mean and the
sample standard deviation (ddof 1), across customers, of the
per-customer mean of the label obtained by left-joining recommendations to
true labels on (customer id, article id) with unmatched rows labelled 0; a
customer none of whose recommended rows matches a positive label
contributes 0. -/
theorem claim_C1_precision (name : String) (recommendations : List RecRow)
    (tl : TrueLabels) (items : List ItemRow) (k : Nat)
    (hnd : (tl.rows.map fun t => (t.cid, t.aid)).Nodup)
    (hchk : checkErr recommendations tl items = none) :
    precFieldsOf (get_metrics name recommendations tl items k)
      = some (meanQO ((cidsOf recommendations tl).map
            (specPrecPerCustomer recommendations tl.rows)),
          stdQO ((cidsOf recommendations tl).map
            (specPrecPerCustomer recommendations tl.rows)))
    ∧ ∀ c ∈ cidsOf recommendations tl,
        (∀ r ∈ recommendations, r.cid = c → specLabel tl.rows r.cid r.aid = 0) →
        specPrecPerCustomer recommendations tl.rows c = 0 := by
  constructor
  · rw [get_metrics_eq_ok name recommendations tl items k hchk]
    show some (meanQO (prec_xcid recommendations tl), stdQO (prec_xcid recommendations tl)) = _
    rw [prec_xcid_eq_spec recommendations tl hnd]
  · intro c hc hz
    unfold specPrecPerCustomer
    have hzero : ((recommendations.filter fun r => r.cid == c).map
        fun r => specLabel tl.rows r.cid r.aid).sum = 0 := by
      apply List.sum_eq_zero
      intro x hx
      rcases List.mem_map.mp hx with ⟨r, hrf, hxe⟩
      have hrc : r.cid = c := by simpa using (List.mem_filter.mp hrf).2
      rw [← hxe]
      exact hz r (List.mem_of_mem_filter hrf) hrc
    simp [hzero]

/-- Claim C1 witness: the worked two-row example satisfies the hypotheses,
and the theorem applies to it. -/
theorem claim_C1_witness :
    ((exTL.rows.map fun t => (t.cid, t.aid)).Nodup
      ∧ checkErr exRecs exTL exItems = none)
    ∧ precFieldsOf (get_metrics "engine" exRecs exTL exItems 5)
      = some (meanQO ((cidsOf exRecs exTL).map (specPrecPerCustomer exRecs exTL.rows)),
          stdQO ((cidsOf exRecs exTL).map (specPrecPerCustomer exRecs exTL.rows))) :=
  ⟨⟨by decide, rfl⟩,
    (claim_C1_precision "engine" exRecs exTL exItems 5 (by decide) rfl).1⟩

/-- Claim C2: the MAP at k cells are the mean and the sample standard
deviation (ddof 1), across customers, of the per-customer mean of
the per-position expanding precision (cumulative label sum over cumulative
count, times the label at the position), positions taken in the order of
the joined frame sorted by (customer id descending, sort column
descending); the sorted frame is indeed sorted by that relation and is a
permutation of the joined frame. -/
theorem claim_C2_map (name : String) (recommendations : List RecRow)
    (tl : TrueLabels) (items : List ItemRow) (k : Nat)
    (hchk : checkErr recommendations tl items = none) :
    mapFieldsOf (get_metrics name recommendations tl items k)
      = some (meanQO ((cidsOf recommendations tl).map
            (specMapPerCustomer recommendations tl)),
          stdQO ((cidsOf recommendations tl).map
            (specMapPerCustomer recommendations tl)))
    ∧ List.Sorted mapRel (sortedMergedOf recommendations tl)
    ∧ List.Perm (sortedMergedOf recommendations tl) (mergedOf recommendations tl) := by
  refine ⟨?_, List.sorted_insertionSort mapRel _, List.perm_insertionSort mapRel _⟩
  rw [get_metrics_eq_ok name recommendations tl items k hchk]
  show some (meanQO (map_xcid recommendations tl), stdQO (map_xcid recommendations tl)) = _
  rw [map_xcid_eq_spec recommendations tl]

/-- Claim C2 witness: the theorem applies to the worked two-row example. -/
theorem claim_C2_witness :
    checkErr exRecs exTL exItems = none
    ∧ mapFieldsOf (get_metrics "engine" exRecs exTL exItems 5)
      = some (meanQO ((cidsOf exRecs exTL).map (specMapPerCustomer exRecs exTL)),
          stdQO ((cidsOf exRecs exTL).map (specMapPerCustomer exRecs exTL))) :=
  ⟨rfl, (claim_C2_map "engine" exRecs exTL exItems 5 rfl).1⟩

/-- Claim C3: the Recall at k cells are the mean and the sample standard
deviation (ddof 1), across customers, of the per-customer sum of
the labels divided by the fixed constant 10. -/
theorem claim_C3_recall (name : String) (recommendations : List RecRow)
    (tl : TrueLabels) (items : List ItemRow) (k : Nat)
    (hnd : (tl.rows.map fun t => (t.cid, t.aid)).Nodup)
    (hchk : checkErr recommendations tl items = none) :
    recFieldsOf (get_metrics name recommendations tl items k)
      = some (meanQO ((cidsOf recommendations tl).map
            (specRecallPerCustomer recommendations tl.rows)),
          stdQO ((cidsOf recommendations tl).map
            (specRecallPerCustomer recommendations tl.rows))) := by
  rw [get_metrics_eq_ok name recommendations tl items k hchk]
  show some (meanQO (rec_xcid recommendations tl), stdQO (rec_xcid recommendations tl)) = _
  rw [rec_xcid_eq_spec recommendations tl hnd]

/-- Claim C3 witness: the theorem applies to the worked two-row example. -/
theorem claim_C3_witness :
    ((exTL.rows.map fun t => (t.cid, t.aid)).Nodup
      ∧ checkErr exRecs exTL exItems = none)
    ∧ recFieldsOf (get_metrics "engine" exRecs exTL exItems 5)
      = some (meanQO ((cidsOf exRecs exTL).map (specRecallPerCustomer exRecs exTL.rows)),
          stdQO ((cidsOf exRecs exTL).map (specRecallPerCustomer exRecs exTL.rows))) :=
  ⟨⟨by decide, rfl⟩,
    claim_C3_recall "engine" exRecs exTL exItems 5 (by decide) rfl⟩

/-- Claim C5: the catalog-coverage cell is the number of distinct
recommended article ids over the number of distinct article ids of the
items index, times 100, rounded (half-to-even) to 4 decimal places. -/
theorem claim_C5_coverage (name : String) (recommendations : List RecRow)
    (tl : TrueLabels) (items : List ItemRow) (k : Nat)
    (hchk : checkErr recommendations tl items = none) :
    covFieldOf (get_metrics name recommendations tl items k)
      = some (specCatCov recommendations items) := by
  rw [get_metrics_eq_ok name recommendations tl items k hchk]
  show some (roundTo4 (100 * catCovRatio recommendations items)) = _
  unfold specCatCov catCovRatio
  rw [length_firstDedup, length_firstDedup]

/-- Claim C5 witness: the theorem applies to the worked two-row example. -/
theorem claim_C5_witness :
    checkErr exRecs exTL exItems = none
    ∧ covFieldOf (get_metrics "engine" exRecs exTL exItems 5)
      = some (specCatCov exRecs exItems) :=
  ⟨rfl, claim_C5_coverage "engine" exRecs exTL exItems 5 rfl⟩

/-- Claim C4 counterexample: a customer with a single recommended item does
not simply contribute no pairs — the pair-expansion step raises (the
`zip(*combs)` TypeError after `explode` turns the empty combination list
into NaN), so no summary row is returned at all, contradicting the claimed
exclusion-and-averaging behaviour. -/
theorem claim_C4_counterexample :
    get_metrics "engine" oneRec exTL oneItems 5 = Except.error PdError.typeErrorZip := rfl

/-- Claim C4 amended: when every recommended article occurs in the items
table, the first-appearance order of the recommended articles agrees with
their order in the items table (otherwise the similarity matrix is labelled
under a permutation), and the run succeeds (in particular every customer
has at least two recommended rows), the Diversity cells are the mean and
the sample standard deviation (ddof 1), across customers, of the
per-customer mean of one minus the cosine similarity of each pair's own
feature vectors; a customer whose pair list is exactly one pair of articles
with identical nonzero feature vectors has diversity 0. -/
theorem claim_C4_amended (name : String) (recommendations : List RecRow)
    (tl : TrueLabels) (items : List ItemRow) (k : Nat)
    (hndItems : (items.map ItemRow.aid).Nodup)
    (hOrder : (presentOf recommendations tl items).map ItemRow.aid
      = uniqAidsOf recommendations tl)
    (hchk : checkErr recommendations tl items = none) :
    divFieldsOf (get_metrics name recommendations tl items k)
      = some (meanRO ((cidsOf recommendations tl).map
            (specDivPerCustomer recommendations tl items)),
          stdRO ((cidsOf recommendations tl).map
            (specDivPerCustomer recommendations tl items)))
    ∧ ∀ c ∈ cidsOf recommendations tl, ∀ a b : String,
        pairsOfCustomer recommendations tl c = [(a, b)] →
        specVec items a = specVec items b →
        dotQ (specVec items a) (specVec items a) ≠ 0 →
        specDivPerCustomer recommendations tl items c = 0 := by
  have hpairs := (checkErr_none_facts recommendations tl items hchk).2.2.2.2
  constructor
  · rw [get_metrics_eq_ok name recommendations tl items k hchk]
    show some (meanRO (div_xcid recommendations tl items),
      stdRO (div_xcid recommendations tl items)) = _
    rw [div_xcid_eq_spec recommendations tl items hndItems hOrder hpairs]
  · intro c hc a b hpair hveq hdot
    unfold specDivPerCustomer
    rw [hpair]
    simp only [List.map_cons, List.map_nil]
    rw [hveq] at hdot ⊢
    rw [cosineSim_self _ hdot]
    norm_num [meanR]

/-- Claim C4 witness: a successful run whose article order agrees between
the sorted recommendations and the items table. -/
theorem claim_C4_witness :
    ((exItems.map ItemRow.aid).Nodup
      ∧ (presentOf exRecsB exTL exItems).map ItemRow.aid = uniqAidsOf exRecsB exTL
      ∧ checkErr exRecsB exTL exItems = none)
    ∧ divFieldsOf (get_metrics "engine" exRecsB exTL exItems 5)
      = some (meanRO ((cidsOf exRecsB exTL).map (specDivPerCustomer exRecsB exTL exItems)),
          stdRO ((cidsOf exRecsB exTL).map (specDivPerCustomer exRecsB exTL exItems))) :=
  ⟨⟨by decide, rfl, rfl⟩,
    (claim_C4_amended "engine" exRecsB exTL exItems 5 (by decide) rfl rfl).1⟩

/-- Claim C6 counterexample: with article A02 recommended but absent from
the items table, `get_metrics` does not silently exclude it and return a
summary row — building the labelled similarity matrix raises the pandas
shape-mismatch ValueError (data is 1 by 1 but the labels imply 2 by 2). -/
theorem claim_C6_counterexample :
    get_metrics "engine" missRecs exTL oneItems 5 = Except.error PdError.valueErrorShape := rfl

/-- Claim C6 amended: when the items index is duplicate-free and nonempty,
the interested column is present, and some recommended article is missing
from the items index, the similarity matrix silently excludes the missing
article but the call then raises (a ValueError) instead of returning a
summary row. -/
theorem claim_C6_amended (name : String) (recommendations : List RecRow)
    (tl : TrueLabels) (items : List ItemRow) (k : Nat)
    (hndItems : (items.map ItemRow.aid).Nodup)
    (hItems : items ≠ [])
    (hI : tl.hasInterested = true)
    (r : RecRow) (hr : r ∈ recommendations) (hmiss : r.aid ∉ items.map ItemRow.aid) :
    raisedOf (get_metrics name recommendations tl items k) = true
    ∧ colsOfRes (get_metrics name recommendations tl items k) = none
    ∧ (checkErr recommendations tl items = some PdError.valueErrorEmptySample
      ∨ checkErr recommendations tl items = some PdError.valueErrorShape) := by
  have hlt := present_lt_uniq recommendations tl items hndItems hr hmiss
  have hnn : (firstDedup (items.map ItemRow.aid)).length ≠ 0 := by
    cases items with
    | nil => exact absurd rfl hItems
    | cons a l => simp [firstDedup]
  have hcheck : checkErr recommendations tl items = some PdError.valueErrorEmptySample
      ∨ checkErr recommendations tl items = some PdError.valueErrorShape := by
    unfold checkErr
    split_ifs with h1 h2 h3 h4 h5
    · exact absurd h1 hnn
    · simp [hI] at h2
    · exact Or.inl rfl
    · exact Or.inr rfl
    · exact absurd (not_not.mp h4) (Nat.ne_of_lt hlt)
    · exact absurd (not_not.mp h4) (Nat.ne_of_lt hlt)
  refine ⟨?_, ?_, hcheck⟩
  · rcases hcheck with hch | hch <;> simp [get_metrics, hch, raisedOf]
  · rcases hcheck with hch | hch <;> simp [get_metrics, hch, colsOfRes]

/-- Claim C6 witness: the missing-article example satisfies the amended
theorem's hypotheses. -/
theorem claim_C6_witness :
    ((oneItems.map ItemRow.aid).Nodup ∧ oneItems ≠ [] ∧ exTL.hasInterested = true
      ∧ (⟨1, "A02", 1⟩ : RecRow) ∈ missRecs ∧ "A02" ∉ oneItems.map ItemRow.aid)
    ∧ raisedOf (get_metrics "engine" missRecs exTL oneItems 5) = true :=
  ⟨⟨by decide, by decide, rfl, by decide, by decide⟩,
    (claim_C6_amended "engine" missRecs exTL oneItems 5 (by decide) (by decide) rfl
      ⟨1, "A02", 1⟩ (by decide) (by decide)).1⟩

/-- Claim C7 counterexample: on the worked example (customer 1, A01 with
rank 1 and label 1, A02 with rank 2 and label 0) the per-customer MAP value
produced by `get_metrics` is 1/4, not the 0.5 the spec derives: the code
sorts the rank column descending, so A02 (rank 2) comes first and the hit
A01 sits at position 2 with expanding precision 1/2, averaged with 0. -/
theorem claim_C7_counterexample :
    mapFieldsOf (get_metrics "engine" exRecs exTL exItems 5) = some (some (1 / 4), none)
    ∧ some ((1 : Rat) / 4) ≠ some ((1 : Rat) / 2) := by
  constructor
  · rw [get_metrics_eq_ok "engine" exRecs exTL exItems 5 rfl]
    have h1 : map_xcid exRecs exTL = [1 / 4] := by
      have hc : cidsOf exRecs exTL = [1] := rfl
      have hl : mapLabelsOf exRecs exTL 1 = [0, 1] := rfl
      rw [map_xcid, hc]
      norm_num [expandingPrec, hl, List.range_succ]
    show some (meanQO (map_xcid exRecs exTL), stdQO (map_xcid exRecs exTL)) = _
    rw [h1, show meanQO [(1 : Rat) / 4] = some ((1 : Rat) / 4) from by norm_num [meanQO],
      show stdQO [(1 : Rat) / 4] = none from by simp [stdQO]]
  · norm_num

/-- Claim C7 amended: on the worked example, precision at k for customer 1
is 0.5 as the spec states, and MAP at k is 0.25 — under the code's
descending sort the hit A01 is ranked second, so the expanding-precision
formula yields (0 + 1/2) / 2. -/
theorem claim_C7_amended :
    precFieldsOf (get_metrics "engine" exRecs exTL exItems 5) = some (some (1 / 2), none)
    ∧ mapFieldsOf (get_metrics "engine" exRecs exTL exItems 5) = some (some (1 / 4), none) := by
  constructor
  · rw [get_metrics_eq_ok "engine" exRecs exTL exItems 5 rfl]
    have h1 : prec_xcid exRecs exTL = [1 / 2] := by
      have hc : cidsOf exRecs exTL = [1] := rfl
      have hm : (mergedOf exRecs exTL).filter (fun r => r.cid == 1)
          = [⟨1, "A01", 1, 1⟩, ⟨1, "A02", 2, 0⟩] := rfl
      rw [prec_xcid, hc]
      norm_num [hm]
    show some (meanQO (prec_xcid exRecs exTL), stdQO (prec_xcid exRecs exTL)) = _
    rw [h1, show meanQO [(1 : Rat) / 2] = some ((1 : Rat) / 2) from by norm_num [meanQO],
      show stdQO [(1 : Rat) / 2] = none from by simp [stdQO]]
  · rw [get_metrics_eq_ok "engine" exRecs exTL exItems 5 rfl]
    have h1 : map_xcid exRecs exTL = [1 / 4] := by
      have hc : cidsOf exRecs exTL = [1] := rfl
      have hl : mapLabelsOf exRecs exTL 1 = [0, 1] := rfl
      rw [map_xcid, hc]
      norm_num [expandingPrec, hl, List.range_succ]
    show some (meanQO (map_xcid exRecs exTL), stdQO (map_xcid exRecs exTL)) = _
    rw [h1, show meanQO [(1 : Rat) / 4] = some ((1 : Rat) / 4) from by norm_num [meanQO],
      show stdQO [(1 : Rat) / 4] = none from by simp [stdQO]]

/-- Claim C8: `show_article` reads the file at the fixed base directory
joined with the first three characters of the article id as a subdirectory
and the id itself with the `.jpg` extension, and returns that image resized
to the requested pixel size; omitting the size resizes to 200 by 200. -/
theorem claim_C8_show_article (fs : String → Option PILImage) (article_id : String)
    (size : Nat × Nat) (im : PILImage)
    (h : fs (articleImagePath article_id) = some im) :
    show_article fs article_id size = some (im.resize size)
    ∧ (im.resize size).width = size.1
    ∧ (im.resize size).height = size.2
    ∧ (im.resize size).content = im.content
    ∧ articleImagePath article_id
      = "./recursos/datos/images/" ++ article_id.take 3 ++ "/" ++ article_id ++ ".jpg"
    ∧ show_article fs article_id = show_article fs article_id (200, 200) := by
  refine ⟨?_, rfl, rfl, rfl, ?_, rfl⟩
  · unfold show_article
    rw [h]
    rfl
  · unfold articleImagePath imagesPath
    simp [String.append_assoc]

/-- Claim C8 witness: the one-image demo filesystem. -/
theorem claim_C8_witness :
    demoFS (articleImagePath "0123456") = some ⟨640, 480, 7⟩
    ∧ show_article demoFS "0123456" (100, 50) = some (PILImage.resize ⟨640, 480, 7⟩ (100, 50)) :=
  ⟨by simp [demoFS],
    (claim_C8_show_article demoFS "0123456" (100, 50) ⟨640, 480, 7⟩ (by simp [demoFS])).1⟩

/-- Claim C9: when the true-labels table carries only the customer id and
article id columns (no `interested` column), `get_metrics` raises the
missing-column KeyError (provided the items index is nonempty so that the
coverage line before it divides by a nonzero count) and returns no
metrics. -/
theorem claim_C9_missing_interested (name : String) (recommendations : List RecRow)
    (tl : TrueLabels) (items : List ItemRow) (k : Nat)
    (hI : tl.hasInterested = false) (hItems : items ≠ []) :
    get_metrics name recommendations tl items k
      = Except.error PdError.keyErrorInterested := by
  have hne : (firstDedup (items.map ItemRow.aid)).length ≠ 0 := by
    cases items with
    | nil => exact absurd rfl hItems
    | cons a l => simp [firstDedup]
  unfold get_metrics checkErr
  simp [hne, hI]

/-- Claim C9 witness: a true-labels table without the `interested` column. -/
theorem claim_C9_witness :
    ((⟨false, []⟩ : TrueLabels).hasInterested = false ∧ ([⟨"A01", [1]⟩] : List ItemRow) ≠ [])
    ∧ get_metrics "engine" oneRec ⟨false, []⟩ [⟨"A01", [1]⟩] 5
      = Except.error PdError.keyErrorInterested :=
  ⟨⟨rfl, by decide⟩,
    claim_C9_missing_interested "engine" oneRec ⟨false, []⟩ [⟨"A01", [1]⟩] 5 rfl (by decide)⟩

/-- Claim C10: two calls that differ only in `k` agree on the engine name
and every numeric cell of the summary row (and on whether they raise); `k`
only enters the textual column labels. -/
theorem claim_C10_k_noninterference (name : String) (recommendations : List RecRow)
    (tl : TrueLabels) (items : List ItemRow) (k k2 : Nat) :
    numericPartOf (get_metrics name recommendations tl items k)
      = numericPartOf (get_metrics name recommendations tl items k2)
    ∧ colsOfRes (get_metrics name recommendations tl items k)
      = (if checkErr recommendations tl items = none then some (columnsOf k) else none) := by
  unfold get_metrics
  cases h : checkErr recommendations tl items with
  | none => simp [h, numericPartOf, colsOfRes]
  | some e => simp [h, numericPartOf, colsOfRes]
